import Mathlib

/-!
Verification of the resilient data-access core of the Evaluation-App
repository (a React Native product-catalog client).

Shallow embedding conventions:
* JavaScript numbers are modelled as rationals (`ℚ`); the payloads handled
  here come from `JSON.parse`, which never produces `NaN` or `Infinity`.
* Timestamps (`Date.now()`) are natural numbers.  For every comparison
  `a - b > t` appearing in the sources, truncated `ℕ` subtraction agrees
  with JavaScript arithmetic (a negative JS difference is never `> t` for
  `t ≥ 0`, and truncated subtraction yields `0` in exactly those cases).
* Promises are modelled by explicit result values: a rejected promise is
  `Except.error`, a resolved one `Except.ok`.  Stateful storage is passed
  explicitly through the functions that mutate it.
* `JSON.parse` / `new URL` are host-platform builtins; the parse *outcome*
  is taken as input where it matters, and URL parsing is abstracted by a
  scheme check (no claim depends on URL corner cases).
-/

namespace EvalApp

/-- JSON values as delivered by `JSON.parse` (numbers are finite, so `ℚ`).
Object fields are kept in order; lookup takes the last binding, as in a
JavaScript object literal. -/
inductive Json where
  | null : Json
  | bool (b : Bool) : Json
  | num (q : ℚ) : Json
  | str (s : String) : Json
  | arr (xs : List Json) : Json
  | obj (fields : List (String × Json)) : Json

/-- JavaScript truthiness of a JSON value (`[]` and `{}` are truthy). -/
def Json.truthy : Json → Bool
  | .null => false
  | .bool b => b
  | .num q => q != 0
  | .str s => s != ""
  | .arr _ => true
  | .obj _ => true

/-- JavaScript `typeof v === 'object'` for a JSON value (arrays and `null` included). -/
def Json.isObjectType : Json → Bool
  | .obj _ => true
  | .arr _ => true
  | .null => true
  | _ => false

/-- Property access `o[name]`: defined bindings of an object, last one wins;
anything else (including arrays, whose numeric indices are not used here)
yields `undefined`, i.e. `none`. -/
def Json.lookup (name : String) : Json → Option Json
  | .obj fields => fields.foldl (fun acc kv => if kv.1 = name then some kv.2 else acc) none
  | _ => none

/-- Substring occurrence on character lists (structural recursion, so that
proofs can evaluate it). -/
def hasSubstring (l sub : List Char) : Bool :=
  match l with
  | [] => sub.isEmpty
  | _ :: rest => sub.isPrefixOf l || hasSubstring rest sub

/-- JavaScript `String.prototype.includes` (substring test). -/
def jsIncludes (s sub : String) : Bool :=
  hasSubstring s.data sub.data

/-- ASCII lower-casing of one character (the error messages classified in
this codebase are ASCII). -/
def charToLower (c : Char) : Char :=
  if 65 ≤ c.toNat ∧ c.toNat ≤ 90 then Char.ofNat (c.toNat + 32) else c

/-- JavaScript `String.prototype.toLowerCase` (ASCII fragment). -/
def jsToLower (s : String) : String :=
  ⟨s.data.map charToLower⟩

/-- JavaScript whitespace for `String.prototype.trim`. -/
def isWsChar (c : Char) : Bool :=
  c = ' ' || c = '\t' || c = '\n' || c = '\r'

/-- JavaScript `String.prototype.trim`. -/
def jsTrim (s : String) : String :=
  ⟨((s.data.dropWhile isWsChar).reverse.dropWhile isWsChar).reverse⟩

/-- Error taxonomy of `errorUtils.AppError.type`. -/
inductive ErrType where
  | network | storage | validation | unknown
deriving DecidableEq

/-- Embedding of `errorUtils.AppError` (the plain object produced by `createAppError`). -/
structure AppError where
  message : String
  code : Option String
  type : ErrType
  recoverable : Bool
  userMessage : String
deriving DecidableEq

/-- Embedding of `ApiService.ApiError` (the plain object produced by `createApiError`). -/
structure ApiError where
  message : String
  status : Option ℕ
  code : Option String
deriving DecidableEq

/-- Values thrown by the code under study:
* `errObj m` — `new Error(m)`;
* `errWithAppFields a` — an `Error` instance that also carries the
  `AppError` fields (allowed by `handleError`'s passthrough branch; no
  code path in the repository constructs one, which is provable here);
* `plainAppErr` / `plainApiErr` — plain (non-`Error`) objects such as the
  results of `createAppError` / `createApiError` when rethrown. -/
inductive Thrown where
  | errObj (message : String)
  | errWithAppFields (e : AppError)
  | plainAppErr (e : AppError)
  | plainApiErr (e : ApiError)
deriving DecidableEq

/-- Embedding of `errorUtils.getUserFriendlyMessage`. -/
def getUserFriendlyMessage (message : String) (type : ErrType) : String :=
  let lowerMessage := jsToLower message
  match type with
  | .network =>
    if jsIncludes lowerMessage "timeout" then
      "Connection timed out. Please check your internet connection and try again."
    else if jsIncludes lowerMessage "network" || jsIncludes lowerMessage "fetch" then
      "Unable to connect to the internet. Please check your connection."
    else if jsIncludes lowerMessage "server" then
      "Server is temporarily unavailable. Please try again later."
    else
      "Network error occurred. Please check your connection and try again."
  | .storage => "Unable to save your preferences. Please try again."
  | .validation => "Invalid data received. Please refresh and try again."
  | .unknown =>
    if jsIncludes lowerMessage "not found" then
      "The requested item could not be found."
    else if jsIncludes lowerMessage "unauthorized" then
      "You are not authorized to perform this action."
    else
      "An unexpected error occurred. Please try again."

/-- Embedding of `errorUtils.createAppError`; note the default `recoverable := true`. -/
def createAppError (message : String) (type : ErrType := .unknown)
    (code : Option String := none) (recoverable : Bool := true) : AppError :=
  { message := message
    code := code
    type := type
    recoverable := recoverable
    userMessage := getUserFriendlyMessage message type }

/-- Embedding of `errorUtils.handleError`: classify a thrown value.  Only an `Error`
instance that already carries the `AppError` fields is passed through; a
plain `Error` is classified by message with `createAppError`'s defaults
(`recoverable := true`); non-`Error` objects become generic unknowns. -/
def handleError (error : Thrown) : AppError :=
  match error with
  | .errWithAppFields a => a
  | .errObj msg =>
    let message := jsToLower msg
    let type : ErrType :=
      if jsIncludes message "network" || jsIncludes message "fetch"
          || jsIncludes message "timeout" then .network
      else if jsIncludes message "storage" || jsIncludes message "asyncstorage" then .storage
      else if jsIncludes message "invalid" || jsIncludes message "validation" then .validation
      else .unknown
    createAppError msg type
  | .plainAppErr _ => createAppError "Unknown error occurred"
  | .plainApiErr _ => createAppError "Unknown error occurred"

/-- Embedding of `gracefulDegradation.GracefulResult<T>` (`data`/`error` use `Option`
for the possibly-`undefined` fields). -/
structure GracefulResult (T : Type) where
  success : Bool
  data : Option T
  error : Option AppError
  fallbackUsed : Bool
  retryCount : ℕ

/-- Outcome of the retry loop inside `withGracefulDegradation`. -/
structure LoopOut (T σ : Type) where
  data : Option T
  lastError : Option AppError
  retryCount : ℕ
  success : Bool
  st : σ

/-- The `for (attempt = 0; attempt <= maxRetries; attempt++)` loop of
`gracefulDegradation.withGracefulDegradation`, over the explicit list of
attempt indices.  `op` is the retried operation: it receives the attempt
index and the current ambient state and either resolves with a value and
a new state or rejects (leaving the state unchanged). -/
def wgdLoop {T σ : Type} (op : ℕ → σ → Except Thrown (T × σ)) (maxRetries : ℕ) :
    List ℕ → Option AppError → ℕ → σ → LoopOut T σ
  | [], lastError, lastAttempt, s =>
    { data := none, lastError := lastError, retryCount := lastAttempt, success := false, st := s }
  | attempt :: rest, _, _, s =>
    match op attempt s with
    | .ok (v, s') =>
      { data := some v, lastError := none, retryCount := attempt, success := true, st := s' }
    | .error e =>
      let lastError := handleError e
      if !lastError.recoverable || attempt == maxRetries then
        { data := none, lastError := some lastError, retryCount := attempt,
          success := false, st := s }
      else
        wgdLoop op maxRetries rest (some lastError) attempt s

/-- Embedding of `gracefulDegradation.withGracefulDegradation` (retry with backoff, then
fallback).  `fallbackValue = none` models the `undefined` default. -/
def withGracefulDegradation {T σ : Type} (op : ℕ → σ → Except Thrown (T × σ))
    (maxRetries : ℕ := 2) (fallbackValue : Option T := none) (s : σ) :
    GracefulResult T × σ :=
  let o := wgdLoop op maxRetries (List.range (maxRetries + 1)) none 0 s
  if o.success then
    ({ success := true, data := o.data, error := none, fallbackUsed := false,
       retryCount := o.retryCount }, o.st)
  else
    match fallbackValue with
    | some fv =>
      ({ success := false, data := some fv, error := o.lastError, fallbackUsed := true,
         retryCount := o.retryCount }, o.st)
    | none =>
      ({ success := false, data := none, error := o.lastError, fallbackUsed := false,
         retryCount := o.retryCount }, o.st)

/-- Embedding of `gracefulDegradation.safeStorageOperation`: one retry, then the
fallback; resolves with `result.data!` (`none` = `undefined`). -/
def safeStorageOperation {T σ : Type} (op : ℕ → σ → Except Thrown (T × σ))
    (fallbackValue : Option T) (s : σ) : Option T × σ :=
  let r := withGracefulDegradation op 1 fallbackValue s
  (r.1.data, r.2)

/-- Normalized product rating (`types.Product.rating`). -/
structure Rating where
  rate : ℚ
  count : ℚ
deriving DecidableEq

/-- Normalized product (`types.Product`). -/
structure Product where
  id : ℚ
  title : String
  price : ℚ
  description : String
  category : String
  image : String
  rating : Rating
deriving DecidableEq

/-- Embedding of `ApiService.isValidUrl`, abstracting the WHATWG `new URL` constructor:
an absolute URL with a non-empty scheme.  No claim below depends on URL
corner cases; the witnesses use ordinary `https://` URLs. -/
def isValidUrl (url : String) : Bool :=
  hasSubstring url.data "://".data && !("://".data.isPrefixOf url.data)

/-- Embedding of `ApiService.validateAndTransformProduct`: field-by-field validation in
source order, then normalization (trimming, rounding to cents / one
decimal, flooring the rating count).  Note that `id` is only required to
be a number — positivity and integrality are not checked. -/
def validateAndTransformProduct (item : Json) : Except String Product :=
  if !item.truthy || !item.isObjectType then
    .error "Product must be an object"
  else
    match item.lookup "id" with
    | some (.num id) =>
      match item.lookup "title" with
      | some (.str title) =>
        if jsTrim title = "" then .error "Product title must be a non-empty string"
        else
          match item.lookup "price" with
          | some (.num price) =>
            if price < 0 then .error "Product price must be a non-negative number"
            else
              match item.lookup "description" with
              | some (.str description) =>
                match item.lookup "category" with
                | some (.str category) =>
                  match item.lookup "image" with
                  | some (.str image) =>
                    if !isValidUrl image then
                      .error "Product image must be a valid URL string"
                    else
                      match item.lookup "rating" with
                      | some rating =>
                        if !rating.truthy || !rating.isObjectType then
                          .error "Product rating must be an object"
                        else
                          match rating.lookup "rate" with
                          | some (.num rate) =>
                            if rate < 0 || rate > 5 then
                              .error "Product rating.rate must be a number between 0 and 5"
                            else
                              match rating.lookup "count" with
                              | some (.num count) =>
                                if count < 0 then
                                  .error "Product rating.count must be a non-negative number"
                                else
                                  .ok { id := id
                                        title := jsTrim title
                                        price := ((round (price * 100) : ℤ) : ℚ) / 100
                                        description := jsTrim description
                                        category := jsTrim category
                                        image := image
                                        rating := { rate := ((round (rate * 10) : ℤ) : ℚ) / 10
                                                    count := ((⌊count⌋ : ℤ) : ℚ) } }
                              | _ => .error "Product rating.count must be a non-negative number"
                          | _ => .error "Product rating.rate must be a number between 0 and 5"
                      | none => .error "Product rating must be an object"
                  | _ => .error "Product image must be a valid URL string"
                | _ => .error "Product category must be a string"
              | _ => .error "Product description must be a string"
          | _ => .error "Product price must be a non-negative number"
      | _ => .error "Product title must be a non-empty string"
    | _ => .error "Product id must be a number"

/-- Embedding of `ApiService.transformProductData`: map each element through the
validator, drop the failures, never abort the batch; a non-array payload
is the only error. -/
def transformProductData (data : Json) : Except ApiError (List Product) :=
  match data with
  | .arr items =>
    .ok (items.filterMap fun item => (validateAndTransformProduct item).toOption)
  | _ =>
    .error { message := "Invalid API response: expected array of products"
             status := some 0, code := some "INVALID_RESPONSE" }

/-- Embedding of `ApiService.CACHE_DURATION` (5 minutes, in milliseconds). -/
def CACHE_DURATION : ℕ := 5 * 60 * 1000

/-- Embedding of `ApiService.getCachedProducts`: the cache slot (`none` = `null`), its
write timestamp and the current time; stale or missing entries yield the
empty list. -/
def getCachedProducts (cachedProducts : Option (List Product))
    (cacheTimestamp now : ℕ) : List Product :=
  match cachedProducts with
  | some ps => if now - cacheTimestamp < CACHE_DURATION then ps else []
  | none => []

/-- Circuit breaker states (`'closed' | 'open' | 'half-open'`);
`opened` stands for the string `'open'`. -/
inductive CBState where
  | closed | opened | halfOpen
deriving DecidableEq

/-- Embedding of `gracefulDegradation.CircuitBreaker` instance fields (constructor
parameters included). -/
structure CircuitBreaker where
  failures : ℕ := 0
  lastFailureTime : ℕ := 0
  state : CBState := .closed
  maxFailures : ℕ := 5
  resetTimeout : ℕ := 60000
  context : String := "Circuit breaker"
deriving DecidableEq

/-- Errors raised by `CircuitBreaker.execute`: the gate's own
"Circuit breaker is open" error, or the wrapped operation's error. -/
inductive CBErr (E : Type) where
  | circuitOpen
  | opFailed (e : E)
deriving DecidableEq

/-- Embedding of `CircuitBreaker.recordFailure`. -/
def recordFailure (cb : CircuitBreaker) (now : ℕ) : CircuitBreaker :=
  let failures := cb.failures + 1
  { cb with
    failures := failures
    lastFailureTime := now
    state := if cb.maxFailures ≤ failures then .opened else cb.state }

/-- Embedding of `CircuitBreaker.reset`. -/
def cbReset (cb : CircuitBreaker) : CircuitBreaker :=
  { cb with failures := 0, state := .closed }

/-- The `try`/`catch` body of `CircuitBreaker.execute`: run the operation,
reset on a half-open success, record the failure and rethrow otherwise.
The `Bool` reports that the wrapped operation was invoked. -/
def cbRun {E T : Type} (cb : CircuitBreaker) (now : ℕ) (opResult : Except E T) :
    Except (CBErr E) T × CircuitBreaker × Bool :=
  match opResult with
  | .ok v =>
    if cb.state = .halfOpen then (.ok v, cbReset cb, true)
    else (.ok v, cb, true)
  | .error e => (.error (.opFailed e), recordFailure cb now, true)

/-- Embedding of `CircuitBreaker.execute`.  The wrapped operation's outcome is passed as
a value; the returned `Bool` is `false` exactly when the open gate threw
without invoking it.  Note the strict `>` in the recovery test. -/
def cbExecute {E T : Type} (cb : CircuitBreaker) (now : ℕ)
    (opResult : Except E T) : Except (CBErr E) T × CircuitBreaker × Bool :=
  if cb.state = .opened then
    if cb.resetTimeout < now - cb.lastFailureTime then
      cbRun { cb with state := .halfOpen } now opResult
    else
      (.error .circuitOpen, cb, false)
  else
    cbRun cb now opResult

/-- The per-attempt body of `gracefulDegradation.safeFetch` as invoked by
`ApiService.fetchProducts`: one transport attempt (fetch + status check +
body decode, all folded into `transport`, whose errors are the thrown
`Error` objects such as `HTTP 500: ...` or a network failure), then the
caller's `validateResponse` check `Array.isArray(data) && data.length > 0`. -/
def fetchAttempt (transport : ℕ → Except Thrown Json) (attempt : ℕ) :
    Except Thrown Json :=
  match transport attempt with
  | .error e => .error e
  | .ok data =>
    match data with
    | .arr xs => if xs.length > 0 then .ok (.arr xs) else
        .error (.errObj "Response validation failed")
    | _ => .error (.errObj "Response validation failed")

/-- Embedding of `safeFetch` specialised to the `fetchProducts` call: `maxRetries = 3`
and `fallbackValue = getCachedProducts()` (always an array, hence always
defined).  On success the data is the raw JSON payload (`Sum.inl`); on a
fallback it is the cached, already-normalized product list (`Sum.inr`) —
in the source both inhabit the same `any[]`. -/
def safeFetchProducts (transport : ℕ → Except Thrown Json)
    (fallback : List Product) : GracefulResult (Json ⊕ List Product) :=
  (withGracefulDegradation
    (fun attempt (_ : Unit) => (fetchAttempt transport attempt).map (fun j => (Sum.inl j, ())))
    3 (some (Sum.inr fallback)) ()).1

/-- JavaScript truthiness of `result.data` inside `fetchProducts`: both
possible payloads are arrays, and arrays are always truthy. -/
def fetchDataTruthy : Json ⊕ List Product → Bool
  | .inl j => j.truthy
  | .inr _ => true

/-- The operation `ApiService.fetchProducts` passes to the circuit
breaker: run `safeFetch`; on a fallback result with truthy data resolve
with the cached products; on success transform and cache the payload;
otherwise rethrow.  Returns the product list together with the updated
`(cachedProducts, cacheTimestamp)` pair. -/
def fetchOp (cache : Option (List Product) × ℕ) (now : ℕ)
    (transport : ℕ → Except Thrown Json) :
    Except Thrown (List Product × (Option (List Product) × ℕ)) :=
  let result := safeFetchProducts transport (getCachedProducts cache.1 cache.2 now)
  if !result.success then
    match result.data with
    | some d =>
      if result.fallbackUsed && fetchDataTruthy d then
        match d with
        | .inr cached => .ok (cached, cache)
        | .inl _ =>
          -- unreachable: a fallback's data is the cached product list
          -- (`safeFetchProducts_data_shape` below); the source would return the raw
          -- payload unvalidated here.
          .error (.errObj "Failed to fetch products")
      else
        match result.error with
        | some appErr => .error (.plainAppErr appErr)
        | none => .error (.errObj "Failed to fetch products")
    | none =>
      match result.error with
      | some appErr => .error (.plainAppErr appErr)
      | none => .error (.errObj "Failed to fetch products")
  else
    match result.data with
    | some (.inl raw) =>
      match transformProductData raw with
      | .ok transformedProducts => .ok (transformedProducts, (some transformedProducts, now))
      | .error apiErr => .error (.plainApiErr apiErr)
    | _ =>
      -- unreachable: a successful result's data is the raw payload
      -- (`safeFetchProducts_data_shape` below); `result.data!` cannot be undefined.
      .error (.errObj "Failed to fetch products")

/-- JavaScript `appError.code || 'API_UNAVAILABLE'`. -/
def jsCodeOr (code : Option String) (dflt : String) : String :=
  match code with
  | some c => if c = "" then dflt else c
  | none => dflt

/-- Embedding of `ApiService.fetchProducts`: circuit breaker around `fetchOp`; on any
throw, fall back to a non-stale cache, else reject with the `ApiError`
built from `handleError`.  Returns the settled result, the breaker state
and the cache slot after the call. -/
def fetchProducts (cb : CircuitBreaker) (cache : Option (List Product) × ℕ)
    (now : ℕ) (transport : ℕ → Except Thrown Json) :
    Except ApiError (List Product) × CircuitBreaker × (Option (List Product) × ℕ) :=
  match cbExecute cb now (fetchOp cache now transport) with
  | (.ok (products, cache'), cb', _) => (.ok products, cb', cache')
  | (.error cbe, cb', _) =>
    let error : Thrown :=
      match cbe with
      | .circuitOpen => .errObj (cb.context ++ ": Circuit breaker is open")
      | .opFailed e => e
    let cachedProducts := getCachedProducts cache.1 cache.2 now
    if cachedProducts.length > 0 then
      (.ok cachedProducts, cb', cache)
    else
      let appError := handleError error
      (.error { message := appError.userMessage
                status := some 0
                code := some (jsCodeOr appError.code "API_UNAVAILABLE") }, cb', cache)

/-- The element filter of `StorageService.getFavorites`:
`typeof id === 'number' && !isNaN(id) && id > 0` (JSON numbers are never
`NaN`).  Note that integrality is not checked. -/
def favFilter (favorites : List Json) : List ℚ :=
  favorites.filterMap fun e =>
    match e with
    | .num q => if 0 < q then some q else none
    | _ => none

/-- Embedding of `StorageService.getFavorites`.  The stored string is represented by
its parse outcome: `none` — the key is absent (or holds a falsy string),
`some none` — `JSON.parse` throws, `some (some j)` — it parses to `j`.
The inner operation is wrapped in `safeStorageOperation` with fallback
`[]`, so the function never rejects. -/
def getFavorites (stored : Option (Option Json)) : List ℚ :=
  let op : ℕ → Unit → Except Thrown (List ℚ × Unit) := fun _ _ =>
    match stored with
    | none => .ok ([], ())
    | some none => .error (.errObj "Unexpected token in JSON")
    | some (some j) =>
      match j with
      | .arr favorites => .ok (favFilter favorites, ())
      | _ => .error (.errObj "Invalid favorites data format in storage")
  ((safeStorageOperation op (some []) ()).1).get!

/-- The storage write performed by one (successful) attempt of
`StorageService.addFavorite`: re-read and validate the stored list, return
unchanged if the id is already present, else append and persist.  The
favorites key's parsed content is the `List Json` state. -/
def addFavoriteStep (productId : ℚ) (store : List Json) : List Json :=
  let currentFavorites := favFilter store
  if productId ∈ currentFavorites then store
  else ((currentFavorites ++ [productId]).map Json.num)

/-- The storage write performed by one (successful) attempt of
`StorageService.removeFavorite`: re-read, drop the id, persist. -/
def removeFavoriteStep (productId : ℚ) (store : List Json) : List Json :=
  (((favFilter store).filter (fun id => id ≠ productId)).map Json.num)

/-- Embedding of `StorageService.addFavorite`.  Input validation happens before any
storage access (`productId <= 0` — `NaN` has no `ℚ` counterpart); the body
runs under `safeStorageOperation` with no fallback value, so storage
faults (injected per attempt by `faults`) are swallowed and the promise
resolves with `undefined` (`Except.ok none`).  A rejection
(`Except.error`) carries the validation error's user message. -/
def addFavorite (productId : ℚ) (faults : ℕ → Option String)
    (store : List Json) : Except String (Option Unit) × List Json :=
  if productId ≤ 0 then
    (.error (handleError (.errObj "Invalid product ID provided")).userMessage, store)
  else
    let op : ℕ → List Json → Except Thrown (Unit × List Json) := fun attempt s =>
      match faults attempt with
      | some m => .error (.errObj m)
      | none => .ok ((), addFavoriteStep productId s)
    let r := safeStorageOperation op none store
    (.ok r.1, r.2)

/-- Embedding of `StorageService.removeFavorite` (same structure as `addFavorite`). -/
def removeFavorite (productId : ℚ) (faults : ℕ → Option String)
    (store : List Json) : Except String (Option Unit) × List Json :=
  if productId ≤ 0 then
    (.error (handleError (.errObj "Invalid product ID provided")).userMessage, store)
  else
    let op : ℕ → List Json → Except Thrown (Unit × List Json) := fun attempt s =>
      match faults attempt with
      | some m => .error (.errObj m)
      | none => .ok ((), removeFavoriteStep productId s)
    let r := safeStorageOperation op none store
    (.ok r.1, r.2)

/-- Embedding of `StorageService.setTheme`: theme-value validation before any storage
access, then a `safeStorageOperation`-wrapped write of the theme key. -/
def setTheme (theme : String) (faults : ℕ → Option String)
    (store : Option String) : Except String (Option Unit) × Option String :=
  if theme ≠ "light" ∧ theme ≠ "dark" then
    (.error (handleError (.errObj "Invalid theme mode provided")).userMessage, store)
  else
    let op : ℕ → Option String → Except Thrown (Unit × Option String) := fun attempt _ =>
      match faults attempt with
      | some m => .error (.errObj m)
      | none => .ok ((), some theme)
    let r := safeStorageOperation op none store
    (.ok r.1, r.2)

/-- No injected storage faults: every attempt's write succeeds. -/
def noFaults : ℕ → Option String := fun _ => none

/-- The `for (const favoriteId of favoritesToAdd)` loop of
`AppContext.saveFavorites`: sequential `addFavorite` calls; a rejection
aborts the remaining writes (the surrounding `try` catches it).  Returns
the final store, the number of `addFavorite` calls issued, and whether the
loop completed. -/
def runAddCalls : List ℚ → List Json → List Json × ℕ × Bool
  | [], store => (store, 0, true)
  | favoriteId :: rest, store =>
    match addFavorite favoriteId noFaults store with
    | (.ok _, store') =>
      let r := runAddCalls rest store'
      (r.1, r.2.1 + 1, r.2.2)
    | (.error _, store') => (store', 1, false)

/-- The `for (const favoriteId of favoritesToRemove)` loop of
`AppContext.saveFavorites`. -/
def runRemoveCalls : List ℚ → List Json → List Json × ℕ × Bool
  | [], store => (store, 0, true)
  | favoriteId :: rest, store =>
    match removeFavorite favoriteId noFaults store with
    | (.ok _, store') =>
      let r := runRemoveCalls rest store'
      (r.1, r.2.1 + 1, r.2.2)
    | (.error _, store') => (store', 1, false)

/-- Embedding of `AppContext.saveFavorites` (the favorites persistence effect): under
the first-render guard, reads the stored favorites, diffs them against the
in-memory set, and issues individual add/remove writes.  Storage is
healthy (reads succeed, so `getFavorites` on the live store is
`favFilter`).  Returns the resulting store and the numbers of
`addFavorite` / `removeFavorite` calls issued. -/
def saveFavorites (memFavorites : List ℚ) (hasProducts : Bool)
    (store : List Json) : List Json × ℕ × ℕ :=
  if memFavorites.length ≠ 0 || hasProducts then
    let currentStoredFavorites := favFilter store
    let favoritesToAdd :=
      memFavorites.filter fun id => decide (id ∉ currentStoredFavorites)
    let favoritesToRemove :=
      currentStoredFavorites.filter fun id => decide (id ∉ memFavorites)
    let ra := runAddCalls favoritesToAdd store
    if ra.2.2 then
      let rr := runRemoveCalls favoritesToRemove ra.1
      (rr.1, ra.2.1, rr.2.1)
    else
      (ra.1, ra.2.1, 0)
  else
    (store, 0, 0)

/-- A concrete normalized product (the sample used by the repository's own
`AppValidator.runAllTests`). -/
def sampleProduct : Product :=
  { id := 1, title := "Test Product", price := 29, description := "Test description",
    category := "test", image := "https://example.com/image.jpg",
    rating := { rate := 4, count := 100 } }

/-! ## Theorems -/

/-- Packaging the elements of `favFilter`: only positive numeric elements
survive the filter. -/
theorem mem_favFilter_pos {q : ℚ} {s : List Json} (h : q ∈ favFilter s) : 0 < q := by
  obtain ⟨e, _, hq⟩ := List.mem_filterMap.mp h
  cases e with
  | num q' =>
    by_cases h0 : 0 < q'
    · simp only [favFilter, if_pos h0, Option.some.injEq] at hq
      exact hq ▸ h0
    · simp [favFilter, if_neg h0] at hq
  | null => simp [favFilter] at hq
  | bool b => simp [favFilter] at hq
  | str s => simp [favFilter] at hq
  | arr xs => simp [favFilter] at hq
  | obj fs => simp [favFilter] at hq

/-- Reading back a list that was just serialized by the storage layer:
`favFilter` is the identity on lists of positive numbers. -/
theorem favFilter_map_num (l : List ℚ) (hl : ∀ x ∈ l, 0 < x) :
    favFilter (l.map Json.num) = l := by
  induction l with
  | nil => rfl
  | cons a t ih =>
    have ha : 0 < a := hl a (List.mem_cons_self a t)
    simp only [List.map_cons, favFilter, List.filterMap_cons, if_pos ha]
    exact congrArg (a :: ·) (ih fun x hx => hl x (List.mem_cons_of_mem a hx))

/-- Auxiliary count: dropping the `none`s of a `filterMap` accounts for the
length difference. -/
theorem length_filterMap_add_countP {α β : Type} (f : α → Option β) (l : List α) :
    (l.filterMap f).length + l.countP (fun a => (f a).isNone) = l.length := by
  induction l with
  | nil => rfl
  | cons a t ih =>
    cases h : f a <;>
      simp [List.filterMap_cons, h, List.countP_cons, ← ih] <;> omega

/-- C7: `ApiService.getCachedProducts` returns the cached list exactly when
an entry exists and is younger than the TTL; a missing entry, or one whose
age reaches the TTL, yields the absent value `[]` even though the stale
entry is physically retained. -/
theorem c7_cache_ttl (c : Option (List Product)) (ts now : ℕ) :
    (∀ ps, c = some ps → now - ts < CACHE_DURATION → getCachedProducts c ts now = ps)
    ∧ ((c = none ∨ CACHE_DURATION ≤ now - ts) → getCachedProducts c ts now = []) := by
  constructor
  · rintro ps rfl h
    simp [getCachedProducts, h]
  · rintro (rfl | h)
    · rfl
    · cases c with
      | none => rfl
      | some ps => simp [getCachedProducts, Nat.not_lt.mpr h]

/-- Witness for `c7_cache_ttl` at a concrete cache state: a one-element
cache written at time 0 is served at age 299999 ms and absent at age
300000 ms (the 5-minute boundary). -/
theorem c7_cache_ttl_witness :
    getCachedProducts (some [sampleProduct]) 0 299999 = [sampleProduct]
    ∧ getCachedProducts (some [sampleProduct]) 0 300000 = [] :=
  ⟨(c7_cache_ttl (some [sampleProduct]) 0 299999).1 [sampleProduct] rfl (by decide),
   (c7_cache_ttl (some [sampleProduct]) 0 300000).2 (Or.inr (by decide))⟩

/-- C6: `ApiService.transformProductData` on an array of N records never
raises because of invalid elements: it returns `.ok` with exactly the
records that pass `validateAndTransformProduct`, so the result length plus
the number K of failing records is N. -/
theorem c6_batch_never_aborts (items : List Json) :
    transformProductData (.arr items)
      = .ok (items.filterMap fun item => (validateAndTransformProduct item).toOption)
    ∧ (items.filterMap fun item => (validateAndTransformProduct item).toOption).length
        + (items.countP fun item => ((validateAndTransformProduct item).toOption).isNone)
      = items.length :=
  ⟨rfl, length_filterMap_add_countP _ _⟩

/-- Inversion of `validateAndTransformProduct`: every product it accepts
satisfies the checked and normalized field properties (note the absence of
any property of `id` beyond being a number). -/
theorem validate_ok_props (item : Json) (p : Product)
    (h : validateAndTransformProduct item = .ok p) :
    p.title ≠ ""
    ∧ 0 ≤ p.price ∧ (∃ n : ℤ, p.price = (n : ℚ) / 100)
    ∧ 0 ≤ p.rating.rate ∧ p.rating.rate ≤ 5 ∧ (∃ m : ℤ, p.rating.rate = (m : ℚ) / 10)
    ∧ (∃ k : ℤ, 0 ≤ k ∧ p.rating.count = (k : ℚ)) := by
  unfold validateAndTransformProduct at h
  repeat' split at h
  all_goals first
    | (rw [Except.ok.injEq] at h
       subst h
       rename_i hobj xi idv heqi xt titlev heqt htitle xp pricev heqp hprice xd descv
         heqd xc catv heqc xim imgv heqim hurl xr ratingv heqr hobj2 xra ratev heqra
         hrate xco countv heqco hcount
       have hp : (0 : ℚ) ≤ pricev := not_lt.mp hprice
       have hco : (0 : ℚ) ≤ countv := not_lt.mp hcount
       simp only [Bool.or_eq_true, decide_eq_true_eq, not_or] at hrate
       obtain ⟨hr0, hr5⟩ := hrate
       have hr0' : (0 : ℚ) ≤ ratev := not_lt.mp hr0
       have hr5' : ratev ≤ 5 := not_lt.mp hr5
       have hpr : 0 ≤ round (pricev * 100) := by
         rw [round_eq]; exact Int.floor_nonneg.mpr (by linarith)
       have hra0 : 0 ≤ round (ratev * 10) := by
         rw [round_eq]; exact Int.floor_nonneg.mpr (by linarith)
       have hra5 : round (ratev * 10) ≤ 50 := by
         rw [round_eq]
         have : ⌊ratev * 10 + 1 / 2⌋ < 51 := Int.floor_lt.mpr (by linarith)
         omega
       refine ⟨htitle, ?_, ⟨round (pricev * 100), rfl⟩, ?_, ?_,
         ⟨round (ratev * 10), rfl⟩, ⟨⌊countv⌋, Int.floor_nonneg.mpr hco, rfl⟩⟩
       · exact div_nonneg (by exact_mod_cast hpr) (by norm_num)
       · exact div_nonneg (by exact_mod_cast hra0) (by norm_num)
       · rw [div_le_iff₀ (by norm_num)]
         have : ((round (ratev * 10) : ℤ) : ℚ) ≤ 50 := by exact_mod_cast hra5
         linarith)
    | exact absurd h (by simp)

/-- A raw record whose `id` is the negative non-integer-free number -7 but
which passes every check of `validateAndTransformProduct`. -/
def c5BadItem : Json :=
  .obj [("id", .num (-7)), ("title", .str "Widget"), ("price", .num 5),
        ("description", .str "d"), ("category", .str "c"),
        ("image", .str "https://example.com/a.png"),
        ("rating", .obj [("rate", .num 4), ("count", .num 10)])]

/-- C5 counterexample: the record `c5BadItem` with `id = -7` is NOT dropped
by the normalization step — the result contains a product whose id is `-7`,
which is not strictly positive (and the validator never checks integrality
of `id` either).  The claim's "integer id strictly greater than 0" is
therefore not enforced. -/
theorem c5_counterexample :
    (transformProductData (.arr [c5BadItem])).map (fun l => l.map Product.id) = .ok [-7]
    ∧ ¬(0 < (-7 : ℚ)) :=
  ⟨rfl, by norm_num⟩

/-- C5 (amended): every record in the normalized result was accepted by
`validateAndTransformProduct` (records failing it are dropped), and it
satisfies the checked invariants: non-empty title, non-negative price
rounded to cents, rating rate in [0,5] rounded to one decimal, integer
rating count ≥ 0.  The `id`, however, is only guaranteed to be a number —
positivity and integrality are not validated. -/
theorem c5_amended (items : List Json) (l : List Product)
    (h : transformProductData (.arr items) = .ok l) (p : Product) (hp : p ∈ l) :
    (∃ item ∈ items, validateAndTransformProduct item = .ok p)
    ∧ p.title ≠ ""
    ∧ 0 ≤ p.price ∧ (∃ n : ℤ, p.price = (n : ℚ) / 100)
    ∧ 0 ≤ p.rating.rate ∧ p.rating.rate ≤ 5 ∧ (∃ m : ℤ, p.rating.rate = (m : ℚ) / 10)
    ∧ (∃ k : ℤ, 0 ≤ k ∧ p.rating.count = (k : ℚ)) := by
  have hl : Except.ok (ε := ApiError)
      (items.filterMap fun item => (validateAndTransformProduct item).toOption) = .ok l := h
  rw [Except.ok.injEq] at hl
  subst hl
  obtain ⟨item, hitem, hv⟩ := List.mem_filterMap.mp hp
  have hvok : validateAndTransformProduct item = .ok p := by
    cases h2 : validateAndTransformProduct item with
    | ok q => rw [h2] at hv; exact congrArg Except.ok (Option.some.injEq .. |>.mp hv)
    | error e => rw [h2] at hv; exact absurd hv (by simp [Except.toOption])
  exact ⟨⟨item, hitem, hvok⟩, validate_ok_props item p hvok⟩

/-- A raw record that passes validation with unexceptional values. -/
def c5GoodItem : Json :=
  .obj [("id", .num 1), ("title", .str "Widget"), ("price", .num 5),
        ("description", .str "d"), ("category", .str "c"),
        ("image", .str "https://example.com/a.png"),
        ("rating", .obj [("rate", .num 4), ("count", .num 10)])]

/-- The normalized product produced from `c5GoodItem` (fields written
exactly as the normalizer computes them). -/
def c5GoodProd : Product :=
  { id := 1, title := jsTrim "Widget",
    price := ((round ((5 : ℚ) * 100) : ℤ) : ℚ) / 100,
    description := jsTrim "d", category := jsTrim "c",
    image := "https://example.com/a.png",
    rating := { rate := ((round ((4 : ℚ) * 10) : ℤ) : ℚ) / 10,
                count := ((⌊(10 : ℚ)⌋ : ℤ) : ℚ) } }

/-- Witness for `c5_amended` at the concrete one-record payload
`[c5GoodItem]`. -/
theorem c5_amended_witness :
    transformProductData (.arr [c5GoodItem]) = .ok [c5GoodProd]
    ∧ ((∃ item ∈ [c5GoodItem], validateAndTransformProduct item = .ok c5GoodProd)
       ∧ c5GoodProd.title ≠ ""
       ∧ 0 ≤ c5GoodProd.price ∧ (∃ n : ℤ, c5GoodProd.price = (n : ℚ) / 100)
       ∧ 0 ≤ c5GoodProd.rating.rate ∧ c5GoodProd.rating.rate ≤ 5
       ∧ (∃ m : ℤ, c5GoodProd.rating.rate = (m : ℚ) / 10)
       ∧ (∃ k : ℤ, 0 ≤ k ∧ c5GoodProd.rating.count = (k : ℚ))) :=
  ⟨rfl, c5_amended [c5GoodItem] [c5GoodProd] rfl c5GoodProd (List.mem_singleton.mpr rfl)⟩

/-- The rational 5/2, written as an explicit fraction in lowest terms. -/
def qHalf : ℚ := ⟨5, 2, by decide, by decide⟩

/-- C8 counterexample: a stored favorites array holding the number 2.5 — a
positive, finite, but NOT integer value — is returned by `getFavorites`
rather than filtered out (`qHalf.den ≠ 1` certifies that 5/2 is not an
integer).  The claim's "positive finite integer" filter is really only a
"positive number" filter. -/
theorem c8_counterexample :
    getFavorites (some (some (Json.arr [Json.num qHalf]))) = [qHalf]
    ∧ qHalf = 5 / 2 ∧ qHalf.den ≠ 1 :=
  ⟨rfl,
   by rw [← Rat.num_div_den qHalf, show qHalf.num = 5 from rfl,
        show qHalf.den = 2 from rfl]; norm_num,
   by decide⟩

/-- C8 (amended): `getFavorites` never rejects — an absent key, an
unparseable string, or a non-array value all yield the empty list (via the
`safeStorageOperation` fallback), and on an array it keeps exactly the
elements that are positive numbers (integrality is not checked); in
particular every returned id is positive. -/
theorem c8_amended :
    (∀ stored q, q ∈ getFavorites stored → 0 < q)
    ∧ (getFavorites none = [] ∧ getFavorites (some none) = [])
    ∧ (∀ j, (∀ fs, j ≠ Json.arr fs) → getFavorites (some (some j)) = [])
    ∧ (∀ fs, getFavorites (some (some (Json.arr fs))) = favFilter fs) := by
  refine ⟨?_, ⟨rfl, rfl⟩, ?_, fun fs => rfl⟩
  · intro stored q hq
    match stored with
    | none => exact absurd hq (by simp [show getFavorites none = [] from rfl])
    | some none => exact absurd hq (by simp [show getFavorites (some none) = [] from rfl])
    | some (some (Json.arr fs)) =>
      exact mem_favFilter_pos
        (show q ∈ favFilter fs from hq)
    | some (some Json.null) => exact absurd hq (by simp [show getFavorites (some (some Json.null)) = [] from rfl])
    | some (some (Json.bool b)) => exact absurd hq (by simp [show getFavorites (some (some (Json.bool b))) = [] from rfl])
    | some (some (Json.num n)) => exact absurd hq (by simp [show getFavorites (some (some (Json.num n))) = [] from rfl])
    | some (some (Json.str s)) => exact absurd hq (by simp [show getFavorites (some (some (Json.str s))) = [] from rfl])
    | some (some (Json.obj fl)) => exact absurd hq (by simp [show getFavorites (some (some (Json.obj fl))) = [] from rfl])
  · intro j hj
    match j with
    | Json.arr fs2 => exact absurd rfl (hj fs2)
    | Json.null => rfl
    | Json.bool b => rfl
    | Json.num n => rfl
    | Json.str s => rfl
    | Json.obj fl => rfl

/-- Witness for `c8_amended`: a stored array mixing a valid id with junk
returns the id (a positive number), and a non-array stored value returns
the empty list. -/
theorem c8_amended_witness :
    ((3 : ℚ) ∈ getFavorites (some (some (Json.arr [Json.num 3, Json.str "x"])))
      ∧ (0 : ℚ) < 3)
    ∧ getFavorites (some (some (Json.str "oops"))) = [] :=
  ⟨⟨show (3 : ℚ) ∈ [(3 : ℚ)] from List.mem_singleton.mpr rfl,
    c8_amended.1 (some (some (Json.arr [Json.num 3, Json.str "x"]))) 3
      (show (3 : ℚ) ∈ [(3 : ℚ)] from List.mem_singleton.mpr rfl)⟩,
   c8_amended.2.2.1 (Json.str "oops") (fun _ h => Json.noConfusion h)⟩

/-- The circuit breaker `ApiService` constructs:
`new CircuitBreaker(5, 60000, 'API Service')`, initially closed. -/
def apiFreshCB : CircuitBreaker :=
  { failures := 0, lastFailureTime := 0, state := .closed,
    maxFailures := 5, resetTimeout := 60000, context := "API Service" }

/-- C1 (evaluation at the failing input): with a fresh breaker, an empty
cache, and a transport that fails on every one of the `maxRetries + 1 = 4`
attempts, `fetchProducts` RESOLVES with the empty product list instead of
rejecting with a network `AppError`.  The cause: `fetchProducts` passes
`fallbackValue: this.getCachedProducts()`, which is `[]` when no cache
exists; `[]` is defined and truthy, so `withGracefulDegradation` reports a
fallback and the `result.fallbackUsed && result.data` branch returns it.
The repository's own test ("should handle API failures gracefully",
`SimpleValidation.test.tsx`) expects this call to throw. -/
theorem c1_code_bug :
    fetchProducts apiFreshCB (none, 0) 1000
      (fun _ => .error (.errObj "Network request failed"))
      = (.ok [], apiFreshCB, (none, 0)) := rfl

/-- C2 (evaluation at the failing input): `handleError` classifies every
plain `Error` — including one whose message indicates an unauthorized /
forbidden / not-found condition — with `recoverable = true` (the
`createAppError` default; `isRecoverableError`, which implements the
non-retryable classes, is never consulted).  Consequently the retry loop
of `withGracefulDegradation` DOES retry after an "unauthorized" failure:
with the first attempt failing that way, a second attempt is made and its
value is returned (`retryCount = 1`). -/
theorem c2_code_bug :
    (∀ msg, (handleError (Thrown.errObj msg)).recoverable = true)
    ∧ (withGracefulDegradation
        (fun n (_ : Unit) =>
          if n = 0 then .error (.errObj "Request failed: unauthorized")
          else .ok ((42 : ℕ), ()))
        3 none ()).1
      = { success := true, data := some 42, error := none, fallbackUsed := false,
          retryCount := 1 } :=
  ⟨fun _ => rfl, rfl⟩

/-- A sequence of `execute` calls, at the given times, whose wrapped
operation always fails. -/
def cbFailRun (cb : CircuitBreaker) (times : List ℕ) : CircuitBreaker :=
  times.foldl (fun c t => (cbExecute c t (Except.error () : Except Unit Unit)).2.1) cb

/-- Invariant of all-failing runs (threshold 5, reset timeout 60000):
after k all-failing calls the breaker is closed with `failures = k` while
k < 5, and open with at least 5 recorded failures from the 5th call on. -/
theorem cbFailRun_inv (times : List ℕ) (cb : CircuitBreaker) (k : ℕ)
    (hmax : cb.maxFailures = 5) (hreset : cb.resetTimeout = 60000)
    (hst : (cb.state = .closed ∧ cb.failures = k ∧ k < 5)
           ∨ (cb.state = .opened ∧ 5 ≤ cb.failures ∧ 5 ≤ k)) :
    (cbFailRun cb times).maxFailures = 5
    ∧ (cbFailRun cb times).resetTimeout = 60000
    ∧ (((cbFailRun cb times).state = .closed
         ∧ (cbFailRun cb times).failures = k + times.length ∧ k + times.length < 5)
       ∨ ((cbFailRun cb times).state = .opened
         ∧ 5 ≤ (cbFailRun cb times).failures ∧ 5 ≤ k + times.length)) := by
  induction times generalizing cb k with
  | nil => simpa [cbFailRun] using ⟨hmax, hreset, hst⟩
  | cons t rest ih =>
    have step : cbFailRun cb (t :: rest)
        = cbFailRun ((cbExecute cb t (Except.error () : Except Unit Unit)).2.1) rest := rfl
    have hlen : k + (t :: rest).length = (k + 1) + rest.length := by
      simp [List.length_cons]; omega
    rw [step, hlen]
    rcases hst with ⟨hc, hf, hk⟩ | ⟨ho, hf, hk⟩
    · have hx : (cbExecute cb t (Except.error () : Except Unit Unit)).2.1
          = recordFailure cb t := by
        simp [cbExecute, hc, cbRun]
      rw [hx]
      rcases Nat.lt_or_ge (k + 1) 5 with h5 | h5
      · exact ih (recordFailure cb t) (k + 1)
          (by simp [recordFailure, hmax]) (by simp [recordFailure, hreset])
          (Or.inl ⟨by simp [recordFailure, hmax, hf, hc]; omega,
                   by simp [recordFailure, hf], h5⟩)
      · exact ih (recordFailure cb t) (k + 1)
          (by simp [recordFailure, hmax]) (by simp [recordFailure, hreset])
          (Or.inr ⟨by simp [recordFailure, hmax, hf]; omega,
                   by simp [recordFailure, hf]; omega, h5⟩)
    · by_cases hg : cb.resetTimeout < t - cb.lastFailureTime
      · have hx : (cbExecute cb t (Except.error () : Except Unit Unit)).2.1
            = recordFailure { cb with state := .halfOpen } t := by
          simp [cbExecute, ho, hg, cbRun]
        rw [hx]
        exact ih _ (k + 1)
          (by simp [recordFailure, hmax]) (by simp [recordFailure, hreset])
          (Or.inr ⟨by simp [recordFailure, hmax]; omega,
                   by simp [recordFailure]; omega, by omega⟩)
      · have hx : (cbExecute cb t (Except.error () : Except Unit Unit)).2.1 = cb := by
          simp [cbExecute, ho, hg]
        rw [hx]
        exact ih cb (k + 1) hmax hreset (Or.inr ⟨ho, hf, by omega⟩)

/-- C3: after at least 5 consecutive failing operations through the
`ApiService` breaker (threshold 5), the breaker is open, and any
subsequent call made while the elapsed time since the last failure is
below the 60000 ms reset timeout rejects immediately with the
circuit-open error, leaves the breaker unchanged, and does not invoke the
wrapped operation (third component `false`). -/
theorem c3_breaker_opens_and_gates (times : List ℕ) (h5 : 5 ≤ times.length)
    (now : ℕ) (op : Except Unit Unit)
    (hnow : now - (cbFailRun apiFreshCB times).lastFailureTime < 60000) :
    (cbFailRun apiFreshCB times).state = .opened
    ∧ cbExecute (cbFailRun apiFreshCB times) now op
      = (.error .circuitOpen, cbFailRun apiFreshCB times, false) := by
  obtain ⟨hmax, hreset, hst⟩ :=
    cbFailRun_inv times apiFreshCB 0 rfl rfl (Or.inl ⟨rfl, rfl, by omega⟩)
  rcases hst with ⟨_, _, hlt⟩ | ⟨ho, _, _⟩
  · omega
  · refine ⟨ho, ?_⟩
    have hng : ¬((cbFailRun apiFreshCB times).resetTimeout
        < now - (cbFailRun apiFreshCB times).lastFailureTime) := by
      rw [hreset]; omega
    simp [cbExecute, ho, hng]

/-- Witness for `c3_breaker_opens_and_gates`: five failing calls at times
1..5, then a call at time 10 (elapsed 5 ms < 60000 ms). -/
theorem c3_breaker_opens_and_gates_witness :
    (cbFailRun apiFreshCB [1, 2, 3, 4, 5]).state = .opened
    ∧ cbExecute (cbFailRun apiFreshCB [1, 2, 3, 4, 5]) 10
        (Except.error () : Except Unit Unit)
      = (.error .circuitOpen, cbFailRun apiFreshCB [1, 2, 3, 4, 5], false) :=
  c3_breaker_opens_and_gates [1, 2, 3, 4, 5] (by decide) 10 (Except.error ()) (by decide)

/-- The `ApiService` breaker in the open state, at the failure threshold,
with its last failure at time 0. -/
def c4Breaker : CircuitBreaker :=
  { failures := 5, lastFailureTime := 0, state := .opened,
    maxFailures := 5, resetTimeout := 60000, context := "API Service" }

/-- C4 counterexample: at elapsed time EXACTLY equal to the reset timeout
(now = 60000, last failure at 0, resetTimeout 60000) an open breaker does
NOT transition to half-open: the recovery test is the strict
`Date.now() - lastFailureTime > resetTimeout`, so the call rejects with
the circuit-open error and the wrapped operation is not invoked — contrary
to the claim's "greater than or equal ... (including exactly equal)". -/
theorem c4_counterexample :
    cbExecute c4Breaker 60000 (Except.ok (0 : ℕ) : Except Unit ℕ)
      = (.error .circuitOpen, c4Breaker, false) := rfl

/-- C4 (amended): when the elapsed time since the last failure is STRICTLY
greater than the reset timeout, an open breaker transitions to half-open
and invokes the operation once as a probe; a successful probe commits to
closed with the failure count reset to 0, and a failed probe commits back
to open (the breaker being open implies `failures ≥ maxFailures`, so the
threshold test in `recordFailure` passes again). -/
theorem c4_amended {T : Type} (cb : CircuitBreaker) (now : ℕ)
    (hopen : cb.state = .opened) (hfail : cb.maxFailures ≤ cb.failures)
    (helapsed : cb.resetTimeout < now - cb.lastFailureTime) :
    (∀ v : T, cbExecute cb now (Except.ok v : Except Unit T)
        = (.ok v, { cb with state := .closed, failures := 0 }, true))
    ∧ (∀ e : Unit, cbExecute cb now (Except.error e : Except Unit T)
        = (.error (.opFailed e),
           { cb with
             failures := cb.failures + 1
             lastFailureTime := now
             state := .opened }, true)) := by
  constructor
  · intro v
    simp [cbExecute, hopen, helapsed, cbRun, cbReset]
  · intro e
    simp [cbExecute, hopen, helapsed, cbRun, recordFailure,
      Nat.le_succ_of_le hfail]

/-- Witness for `c4_amended` at `c4Breaker` one millisecond past the reset
timeout. -/
theorem c4_amended_witness :
    cbExecute c4Breaker 60001 (Except.ok (0 : ℕ) : Except Unit ℕ)
      = (.ok 0, { c4Breaker with state := .closed, failures := 0 }, true)
    ∧ cbExecute c4Breaker 60001 (Except.error () : Except Unit ℕ)
      = (.error (.opFailed ()),
         { c4Breaker with
           failures := 6
           lastFailureTime := 60001
           state := .opened }, true) :=
  ⟨(c4_amended c4Breaker 60001 rfl (by decide) (by decide)).1 0,
   (c4_amended c4Breaker 60001 rfl (by decide) (by decide)).2 ()⟩

/-- C10: the storage mutations never reject because of storage faults —
for every per-attempt fault pattern the promises resolve (`Except.ok`),
and when every attempt faults they resolve with `undefined` leaving the
store untouched (the fault was retried once, then swallowed by
`safeStorageOperation`).  The only rejections are the input-validation
errors (non-positive id; theme outside {light, dark}), raised before any
storage access with the store unchanged. -/
theorem c10_faults_swallowed :
    (∀ (pid : ℚ) (faults : ℕ → Option String) (store : List Json), 0 < pid →
      ∃ d s', addFavorite pid faults store = (.ok d, s'))
    ∧ (∀ (pid msg : _) (store : List Json), 0 < pid →
      addFavorite pid (fun _ => some msg) store = (.ok none, store))
    ∧ (∀ (pid : ℚ) (faults : ℕ → Option String) (store : List Json), 0 < pid →
      ∃ d s', removeFavorite pid faults store = (.ok d, s'))
    ∧ (∀ (pid msg : _) (store : List Json), 0 < pid →
      removeFavorite pid (fun _ => some msg) store = (.ok none, store))
    ∧ (∀ (theme : String) (faults : ℕ → Option String) (tstore : Option String),
      theme = "light" ∨ theme = "dark" →
      ∃ d s', setTheme theme faults tstore = (.ok d, s'))
    ∧ (∀ (theme msg : String) (tstore : Option String),
      theme = "light" ∨ theme = "dark" →
      setTheme theme (fun _ => some msg) tstore = (.ok none, tstore))
    ∧ (∀ (pid : ℚ) (faults : ℕ → Option String) (store : List Json), pid ≤ 0 →
      addFavorite pid faults store
        = (.error "Invalid data received. Please refresh and try again.", store))
    ∧ (∀ (pid : ℚ) (faults : ℕ → Option String) (store : List Json), pid ≤ 0 →
      removeFavorite pid faults store
        = (.error "Invalid data received. Please refresh and try again.", store))
    ∧ (∀ (theme : String) (faults : ℕ → Option String) (tstore : Option String),
      theme ≠ "light" → theme ≠ "dark" →
      setTheme theme faults tstore
        = (.error "Invalid data received. Please refresh and try again.", tstore)) := by
  refine ⟨?_, ?_, ?_, ?_, ?_, ?_, ?_, ?_, ?_⟩
  · intro pid faults store h
    simp only [addFavorite, if_neg (not_le.mpr h)]
    exact ⟨_, _, rfl⟩
  · intro pid msg store h
    simp only [addFavorite, if_neg (not_le.mpr h)]
    rfl
  · intro pid faults store h
    simp only [removeFavorite, if_neg (not_le.mpr h)]
    exact ⟨_, _, rfl⟩
  · intro pid msg store h
    simp only [removeFavorite, if_neg (not_le.mpr h)]
    rfl
  · intro theme faults tstore h
    have hne : ¬(theme ≠ "light" ∧ theme ≠ "dark") := by
      rcases h with rfl | rfl <;> simp
    simp only [setTheme, if_neg hne]
    exact ⟨_, _, rfl⟩
  · intro theme msg tstore h
    have hne : ¬(theme ≠ "light" ∧ theme ≠ "dark") := by
      rcases h with rfl | rfl <;> simp
    simp only [setTheme, if_neg hne]
    rfl
  · intro pid faults store h
    simp only [addFavorite, if_pos h]
    rfl
  · intro pid faults store h
    simp only [removeFavorite, if_pos h]
    rfl
  · intro theme faults tstore h1 h2
    simp only [setTheme, if_pos (And.intro h1 h2)]
    rfl

/-- Witness for `c10_faults_swallowed` at concrete inputs: a persistent
storage fault is swallowed by `addFavorite`/`removeFavorite`/`setTheme`
(resolving with `undefined`, store unchanged), a valid `setTheme` resolves,
and the three validation rejections fire with the store unchanged. -/
theorem c10_faults_swallowed_witness :
    addFavorite 3 (fun _ => some "AsyncStorage write failure") [] = (.ok none, [])
    ∧ removeFavorite 3 (fun _ => some "AsyncStorage write failure") [] = (.ok none, [])
    ∧ setTheme "dark" (fun _ => some "AsyncStorage write failure") none = (.ok none, none)
    ∧ (∃ d s', setTheme "dark" noFaults none = (.ok d, s'))
    ∧ addFavorite (-1) noFaults []
      = (.error "Invalid data received. Please refresh and try again.", [])
    ∧ removeFavorite (-1) noFaults []
      = (.error "Invalid data received. Please refresh and try again.", [])
    ∧ setTheme "blue" noFaults none
      = (.error "Invalid data received. Please refresh and try again.", none) :=
  ⟨c10_faults_swallowed.2.1 3 "AsyncStorage write failure" [] (by norm_num),
   c10_faults_swallowed.2.2.2.1 3 "AsyncStorage write failure" [] (by norm_num),
   c10_faults_swallowed.2.2.2.2.2.1 "dark" "AsyncStorage write failure" none (Or.inr rfl),
   c10_faults_swallowed.2.2.2.2.1 "dark" noFaults none (Or.inr rfl),
   c10_faults_swallowed.2.2.2.2.2.2.1 (-1) noFaults [] (by norm_num),
   c10_faults_swallowed.2.2.2.2.2.2.2.1 (-1) noFaults [] (by norm_num),
   c10_faults_swallowed.2.2.2.2.2.2.2.2 "blue" noFaults none
     (by decide) (by decide)⟩

/-- With healthy storage and a valid id, one `addFavorite` call performs
exactly its read-check-write step. -/
theorem addFavorite_noFaults (pid : ℚ) (h : 0 < pid) (s : List Json) :
    addFavorite pid noFaults s = (.ok (some ()), addFavoriteStep pid s) := by
  simp only [addFavorite, if_neg (not_le.mpr h)]
  rfl

/-- With healthy storage and a valid id, one `removeFavorite` call performs
exactly its read-filter-write step. -/
theorem removeFavorite_noFaults (pid : ℚ) (h : 0 < pid) (s : List Json) :
    removeFavorite pid noFaults s = (.ok (some ()), removeFavoriteStep pid s) := by
  simp only [removeFavorite, if_neg (not_le.mpr h)]
  rfl

/-- Membership after one add step: the stored favorite set gains `pid`. -/
theorem addFavoriteStep_mem (pid : ℚ) (hpid : 0 < pid) (s : List Json) (x : ℚ) :
    x ∈ favFilter (addFavoriteStep pid s) ↔ x ∈ favFilter s ∨ x = pid := by
  unfold addFavoriteStep
  by_cases hmem : pid ∈ favFilter s
  · rw [if_pos hmem]
    constructor
    · exact Or.inl
    · rintro (hx | rfl)
      · exact hx
      · exact hmem
  · rw [if_neg hmem, favFilter_map_num]
    · simp [List.mem_append]
    · intro y hy
      rcases List.mem_append.mp hy with h1 | h1
      · exact mem_favFilter_pos h1
      · rw [List.mem_singleton.mp h1]; exact hpid

/-- Membership after one remove step: the stored favorite set loses `pid`. -/
theorem removeFavoriteStep_mem (pid : ℚ) (s : List Json) (x : ℚ) :
    x ∈ favFilter (removeFavoriteStep pid s) ↔ x ∈ favFilter s ∧ x ≠ pid := by
  unfold removeFavoriteStep
  rw [favFilter_map_num]
  · simp [List.mem_filter]
  · intro y hy
    exact mem_favFilter_pos (List.mem_filter.mp hy).1

/-- The add loop of `saveFavorites` completes (no validation rejection for
positive ids) and makes the stored favorite set the union of the previous
one with the added ids. -/
theorem runAddCalls_spec (ids : List ℚ) (hids : ∀ id ∈ ids, 0 < id) (s : List Json) :
    (runAddCalls ids s).2.2 = true
    ∧ ∀ x, (x ∈ favFilter (runAddCalls ids s).1 ↔ x ∈ favFilter s ∨ x ∈ ids) := by
  induction ids generalizing s with
  | nil => exact ⟨rfl, fun x => by simp [runAddCalls]⟩
  | cons id rest ih =>
    have hid : 0 < id := hids id (List.mem_cons_self id rest)
    have hrest : ∀ i ∈ rest, 0 < i := fun i hi => hids i (List.mem_cons_of_mem id hi)
    have hstep : runAddCalls (id :: rest) s
        = ((runAddCalls rest (addFavoriteStep id s)).1,
           (runAddCalls rest (addFavoriteStep id s)).2.1 + 1,
           (runAddCalls rest (addFavoriteStep id s)).2.2) := by
      simp only [runAddCalls, addFavorite_noFaults id hid s]
    obtain ⟨hok, hmem⟩ := ih hrest (addFavoriteStep id s)
    rw [hstep]
    refine ⟨hok, fun x => ?_⟩
    rw [hmem x, addFavoriteStep_mem id hid s x, List.mem_cons]
    tauto

/-- The remove loop of `saveFavorites` completes and makes the stored
favorite set the difference of the previous one and the removed ids. -/
theorem runRemoveCalls_spec (ids : List ℚ) (hids : ∀ id ∈ ids, 0 < id) (s : List Json) :
    (runRemoveCalls ids s).2.2 = true
    ∧ ∀ x, (x ∈ favFilter (runRemoveCalls ids s).1 ↔ x ∈ favFilter s ∧ x ∉ ids) := by
  induction ids generalizing s with
  | nil => exact ⟨rfl, fun x => by simp [runRemoveCalls]⟩
  | cons id rest ih =>
    have hid : 0 < id := hids id (List.mem_cons_self id rest)
    have hrest : ∀ i ∈ rest, 0 < i := fun i hi => hids i (List.mem_cons_of_mem id hi)
    have hstep : runRemoveCalls (id :: rest) s
        = ((runRemoveCalls rest (removeFavoriteStep id s)).1,
           (runRemoveCalls rest (removeFavoriteStep id s)).2.1 + 1,
           (runRemoveCalls rest (removeFavoriteStep id s)).2.2) := by
      simp only [runRemoveCalls, removeFavorite_noFaults id hid s]
    obtain ⟨hok, hmem⟩ := ih hrest (removeFavoriteStep id s)
    rw [hstep]
    refine ⟨hok, fun x => ?_⟩
    rw [hmem x, removeFavoriteStep_mem id s x, List.mem_cons]
    tauto

/-- C9: the favorites reconciliation is idempotent.  If every in-memory
favorite id is valid (positive — so the first run completes successfully),
then running `saveFavorites` a second time on the storage produced by the
first run computes empty add and remove sets and issues zero
`addFavorite`/`removeFavorite` calls, leaving storage unchanged. -/
theorem c9_reconciler_idempotent (mem : List ℚ) (hasProducts : Bool)
    (store : List Json) (hmem : ∀ id ∈ mem, 0 < id) :
    saveFavorites mem hasProducts (saveFavorites mem hasProducts store).1
      = ((saveFavorites mem hasProducts store).1, 0, 0) := by
  by_cases hguard : (decide (mem.length ≠ 0) || hasProducts) = true
  · have hAddPos : ∀ i ∈ mem.filter (fun id => decide (id ∉ favFilter store)), 0 < i :=
      fun i hi => hmem i (List.mem_filter.mp hi).1
    have hRemPos : ∀ i ∈ (favFilter store).filter (fun id => decide (id ∉ mem)), 0 < i :=
      fun i hi => mem_favFilter_pos (List.mem_filter.mp hi).1
    obtain ⟨hok1, hmem1⟩ :=
      runAddCalls_spec (mem.filter (fun id => decide (id ∉ favFilter store))) hAddPos store
    obtain ⟨hok2, hmem2⟩ :=
      runRemoveCalls_spec ((favFilter store).filter (fun id => decide (id ∉ mem))) hRemPos
        (runAddCalls (mem.filter (fun id => decide (id ∉ favFilter store))) store).1
    have hrun1 : (saveFavorites mem hasProducts store).1
        = (runRemoveCalls ((favFilter store).filter (fun id => decide (id ∉ mem)))
            (runAddCalls (mem.filter (fun id => decide (id ∉ favFilter store))) store).1).1 := by
      simp only [saveFavorites, if_pos hguard, hok1, if_true]
    have hkey : ∀ x, x ∈ favFilter (saveFavorites mem hasProducts store).1 ↔ x ∈ mem := by
      intro x
      rw [hrun1, hmem2 x, hmem1 x]
      simp only [List.mem_filter, decide_eq_true_eq]
      by_cases hxm : x ∈ mem <;> by_cases hxs : x ∈ favFilter store <;> tauto
    have e1 : mem.filter
        (fun id => decide (id ∉ favFilter (saveFavorites mem hasProducts store).1)) = [] := by
      rw [List.filter_eq_nil_iff]
      intro a ha
      simp only [decide_eq_true_eq, not_not]
      exact (hkey a).mpr ha
    have e2 : (favFilter (saveFavorites mem hasProducts store).1).filter
        (fun id => decide (id ∉ mem)) = [] := by
      rw [List.filter_eq_nil_iff]
      intro a ha
      simp only [decide_eq_true_eq, not_not]
      exact (hkey a).mp ha
    simp only [saveFavorites, if_pos hguard] at e1 e2 ⊢
    rw [e1, e2]
    simp [runAddCalls, runRemoveCalls]
  · have h1 : saveFavorites mem hasProducts store = (store, 0, 0) := by
      simp only [saveFavorites, if_neg hguard]
    rw [h1]
    exact h1

/-- Witness for `c9_reconciler_idempotent`: in-memory favorites {3, 7}
against a store holding junk and the id 2; the first run adds 3 and 7 and
removes 2, the second issues zero calls. -/
theorem c9_reconciler_idempotent_witness :
    ((3 : ℚ) ∈ ([3, 7] : List ℚ) → (0 : ℚ) < 3)
    ∧ saveFavorites [3, 7] false
        (saveFavorites [3, 7] false [Json.num 2, Json.str "junk"]).1
      = ((saveFavorites [3, 7] false [Json.num 2, Json.str "junk"]).1, 0, 0) :=
  ⟨fun _ => by norm_num,
   c9_reconciler_idempotent [3, 7] false [Json.num 2, Json.str "junk"] (by decide)⟩

/-- Shape of the retry loop's data on success: it is a value the operation
actually produced. -/
theorem wgdLoop_data_shape {T σ : Type} (op : ℕ → σ → Except Thrown (T × σ))
    (P : T → Prop) (hop : ∀ n s v s', op n s = .ok (v, s') → P v) (m : ℕ)
    (rem : List ℕ) (le : Option AppError) (la : ℕ) (s : σ) :
    (wgdLoop op m rem le la s).success = true →
      ∃ v, (wgdLoop op m rem le la s).data = some v ∧ P v := by
  induction rem generalizing le la s with
  | nil => intro h; exact absurd h (by simp [wgdLoop])
  | cons a rest ih =>
    intro h
    cases hop2 : op a s with
    | ok vs =>
      obtain ⟨v, s'⟩ := vs
      simp only [wgdLoop, hop2] at h ⊢
      exact ⟨v, rfl, hop a s v s' hop2⟩
    | error e =>
      simp only [wgdLoop, hop2] at h ⊢
      by_cases hc : (!(handleError e).recoverable || (a == m)) = true
      · rw [if_pos hc] at h
        exact absurd h (by simp)
      · rw [if_neg hc] at h ⊢
        exact ih _ _ _ h

/-- Branch coverage for `fetchOp`: a successful `safeFetch` result always
carries the raw JSON payload, and an unsuccessful one always carries the
cached fallback with `fallbackUsed = true` — the two `fetchOp` branches
marked unreachable can indeed never fire. -/
theorem safeFetchProducts_data_shape (transport : ℕ → Except Thrown Json)
    (fallback : List Product) :
    ((safeFetchProducts transport fallback).success = true →
      ∃ raw, (safeFetchProducts transport fallback).data = some (Sum.inl raw))
    ∧ ((safeFetchProducts transport fallback).success = false →
      (safeFetchProducts transport fallback).fallbackUsed = true
      ∧ (safeFetchProducts transport fallback).data = some (Sum.inr fallback)) := by
  have key := wgdLoop_data_shape
    (fun attempt (_ : Unit) =>
      (fetchAttempt transport attempt).map (fun j => ((Sum.inl j : Json ⊕ List Product), ())))
    (fun v => ∃ raw, v = Sum.inl raw)
    (by
      intro n s v s' hv
      simp only [] at hv
      cases hfa : fetchAttempt transport n with
      | ok j =>
        rw [hfa] at hv
        simp only [Except.map, Except.ok.injEq, Prod.mk.injEq] at hv
        exact ⟨j, hv.1.symm⟩
      | error e => rw [hfa] at hv; exact absurd hv (by simp [Except.map]))
    3 (List.range (3 + 1)) none 0 ()
  simp only [safeFetchProducts, withGracefulDegradation]
  cases ho : (wgdLoop
      (fun attempt (_ : Unit) =>
        (fetchAttempt transport attempt).map (fun j => ((Sum.inl j : Json ⊕ List Product), ())))
      3 (List.range (3 + 1)) none 0 ()).success with
  | true =>
    obtain ⟨v, hd, raw, hraw⟩ := key ho
    constructor
    · intro _
      rw [if_pos (rfl : true = true), hd, hraw]
      exact ⟨raw, rfl⟩
    · intro hfalse
      rw [if_pos (rfl : true = true)] at hfalse
      exact absurd hfalse (by simp)
  | false =>
    constructor
    · intro htrue
      rw [if_neg (by simp : ¬(false = true))] at htrue
      exact absurd htrue (by simp)
    · intro _
      rw [if_neg (by simp : ¬(false = true))]
      exact ⟨rfl, rfl⟩

end EvalApp
